import Mathlib

/-!
Verification of the SparrowVision IGA user-synchronization core
(`iga_user_sync.py`): a shallow embedding of the transport retry loop
(`_make_request`), the record normalizer (`_parse_user_data`), the risk
scorer (`_calculate_risk_score`), the pagination orchestrator
(`retrieve_all_users`) and the privileged-user query helper
(`get_privileged_users`), together with proofs about them.

Raw API records are JSON-like Python values; we embed them as the
inductive `JValue` and give the Python primitives the script relies on
(`dict.get`, truthiness, `or`, `str()`, `in` on strings) as executable
Lean functions.  Wall-clock time enters only through
`datetime.now()` inside the risk scorer; we model time at day
granularity as an explicit `now : Int` parameter (days since epoch).
-/

set_option autoImplicit false

namespace IGASync

/-- A JSON-like Python value, as produced by `response.json()`.
Numbers are modelled as integers (the script never does arithmetic on
record fields, so fractional values play no role in any property). -/
inductive JValue where
  | null
  | bool (b : Bool)
  | num (n : Int)
  | str (s : String)
  | arr (elems : List JValue)
  | obj (fields : List (String × JValue))
  deriving Inhabited

namespace JValue

/-- Key lookup in an object; `none` when the key is absent or the value
is not a dict.  JSON-decoded dicts have distinct keys, so first match
suffices. -/
def getKey : JValue → String → Option JValue
  | .obj fields, k => lookupField fields k
  | _, _ => none
where
  lookupField : List (String × JValue) → String → Option JValue
    | [], _ => none
    | (k1, v) :: rest, k => if k1 = k then some v else lookupField rest k

/-- Python truthiness: `bool(v)`. -/
def truthy : JValue → Bool
  | .null => false
  | .bool b => b
  | .num n => n != 0
  | .str s => !s.isEmpty
  | .arr xs => !xs.isEmpty
  | .obj fs => !fs.isEmpty

/-- `v.get(k, d)` on a dict (the script only calls `.get` on dicts,
elsewhere it raises; non-dict receivers are handled at the call sites). -/
def getD (v : JValue) (k : String) (d : JValue) : JValue :=
  (v.getKey k).getD d

/-- `v.get(k)`: absent keys give `None`. -/
def get1 (v : JValue) (k : String) : JValue :=
  v.getD k .null

/-- Python `a or b`: `a` when truthy, else `b`. -/
def pyOr (a b : JValue) : JValue :=
  if a.truthy then a else b

/-- `repr(v)` for a Python value, used by `str()` on containers.  String
escaping inside reprs is not modelled (no property depends on it). -/
def pyRepr : JValue → String
  | .null => "None"
  | .bool true => "True"
  | .bool false => "False"
  | .num n => toString n
  | .str s => "\x27" ++ s ++ "\x27"
  | .arr xs => "[" ++ String.intercalate ", " (reprList xs) ++ "]"
  | .obj fs => "\x7b" ++ String.intercalate ", " (reprFields fs) ++ "\x7d"
where
  reprList : List JValue → List String
    | [] => []
    | v :: rest => pyRepr v :: reprList rest
  reprFields : List (String × JValue) → List String
    | [] => []
    | (k, v) :: rest => ("\x27" ++ k ++ "\x27: " ++ pyRepr v) :: reprFields rest

/-- `str(v)`: identical to `repr` except on strings. -/
def pyStr : JValue → String
  | .str s => s
  | v => pyRepr v

/-! Decidable equality for `JValue` (nested inductive, so the deriving
handler is unavailable; spelled out by mutual recursion). -/

mutual
def beqJ : JValue → JValue → Bool
  | .null, .null => true
  | .bool a, .bool b => a == b
  | .num a, .num b => a == b
  | .str a, .str b => a == b
  | .arr xs, .arr ys => beqJList xs ys
  | .obj fs, .obj gs => beqJFields fs gs
  | _, _ => false

def beqJList : List JValue → List JValue → Bool
  | [], [] => true
  | x :: xs, y :: ys => beqJ x y && beqJList xs ys
  | _, _ => false

def beqJFields : List (String × JValue) → List (String × JValue) → Bool
  | [], [] => true
  | (k1, v1) :: xs, (k2, v2) :: ys => k1 == k2 && beqJ v1 v2 && beqJFields xs ys
  | _, _ => false
end

mutual
def beqJ_iff : (a b : JValue) → (beqJ a b = true ↔ a = b)
  | .null, b => by cases b <;> simp [beqJ]
  | .bool x, b => by cases b <;> simp [beqJ]
  | .num x, b => by cases b <;> simp [beqJ]
  | .str x, b => by cases b <;> simp [beqJ]
  | .arr xs, b => by
    cases b <;> simp [beqJ]
    exact beqJList_iff xs _
  | .obj fs, b => by
    cases b <;> simp [beqJ]
    exact beqJFields_iff fs _

def beqJList_iff : (xs ys : List JValue) → (beqJList xs ys = true ↔ xs = ys)
  | [], ys => by cases ys <;> simp [beqJList]
  | x :: xs, ys => by
    cases ys with
    | nil => simp [beqJList]
    | cons y ys => simp [beqJList, beqJ_iff x y, beqJList_iff xs ys]

def beqJFields_iff : (xs ys : List (String × JValue)) → (beqJFields xs ys = true ↔ xs = ys)
  | [], ys => by cases ys <;> simp [beqJFields]
  | (k1, v1) :: xs, ys => by
    cases ys with
    | nil => simp [beqJFields]
    | cons y ys =>
      cases y with
      | mk k2 v2 =>
        simp [beqJFields, beqJ_iff v1 v2, beqJFields_iff xs ys, and_assoc]
end

instance : DecidableEq JValue := fun a b => decidable_of_iff _ (beqJ_iff a b)

end JValue

/-- Python `needle in hay` on lists of characters: contiguous substring
containment. -/
def charsContain (needle : List Char) : List Char → Bool
  | [] => needle.isEmpty
  | c :: rest => needle.isPrefixOf (c :: rest) || charsContain needle rest

/-- Python `needle in hay` on strings. -/
def strContains (hay needle : String) : Bool :=
  charsContain needle.data hay.data

/-- `s.lower()` (ASCII, which covers every name the script compares). -/
def pyLower (s : String) : String :=
  String.mk (s.data.map Char.toLower)

/-- `s.upper()`. -/
def pyUpper (s : String) : String :=
  String.mk (s.data.map Char.toUpper)

def isPySpace (c : Char) : Bool :=
  c == ' ' || c == '\t' || c == '\n' || c == '\x0b' || c == '\x0c' || c == '\r'

/-- `s.strip()`. -/
def pyStrip (s : String) : String :=
  String.mk ((((s.data.dropWhile isPySpace).reverse).dropWhile isPySpace).reverse)

/-! ### Dates

`_calculate_risk_score` parses `last_login` with
`datetime.fromisoformat(last_login.replace('Z', '+00:00'))` and compares
it against `datetime.now()`, using only the whole-day difference
`timedelta.days`.  We model time at day granularity: a moment is an
`Int` counting days since 1970-01-01, and ISO strings are parsed to
that count from their `YYYY-MM-DD` prefix.  Time-of-day, the `Z`
replacement and timezone stripping affect the result by at most the
sub-day part, which no property below depends on. -/

/-- Days since 1970-01-01 of the civil date `y-m-d` (proleptic
Gregorian, `y ≥ 1`, Hinnant's algorithm on naturals). -/
def daysFromCivil (y m d : Nat) : Int :=
  let yAdj : Nat := if m ≤ 2 then y - 1 else y
  let era : Nat := yAdj / 400
  let yoe : Nat := yAdj % 400
  let mp : Nat := (m + 9) % 12
  let doy : Nat := (153 * mp + 2) / 5 + d - 1
  let doe : Nat := yoe * 365 + yoe / 4 - yoe / 100 + doy
  (era * 146097 + doe : Int) - 719468

/-- Length of month `m` of year `y`. -/
def daysInMonth (y m : Nat) : Nat :=
  if m = 2 then
    if y % 4 = 0 ∧ (y % 100 ≠ 0 ∨ y % 400 = 0) then 29 else 28
  else if m = 4 ∨ m = 6 ∨ m = 9 ∨ m = 11 then 30
  else 31

def digitVal (c : Char) : Nat := c.toNat - 48

/-- Day-granularity model of `datetime.fromisoformat`: accepts a
`YYYY-MM-DD` calendar prefix, standing alone or followed by a
`T`-separated time part (whose field validation is below day
granularity and abstracted), and yields days since epoch.  Anything
else is the `ValueError` path. -/
def parseIsoDate (s : String) : Option Int :=
  let cs := s.data
  if h10 : cs.length = 10 ∨ (10 < cs.length ∧ cs.get? 10 = some 'T') then
    match cs with
    | y1 :: y2 :: y3 :: y4 :: '-' :: m1 :: m2 :: '-' :: d1 :: d2 :: _ =>
      if (y1.isDigit && y2.isDigit && y3.isDigit && y4.isDigit &&
          m1.isDigit && m2.isDigit && d1.isDigit && d2.isDigit) then
        let y := ((digitVal y1 * 10 + digitVal y2) * 10 + digitVal y3) * 10 + digitVal y4
        let m := digitVal m1 * 10 + digitVal m2
        let d := digitVal d1 * 10 + digitVal d2
        if 1 ≤ y ∧ 1 ≤ m ∧ m ≤ 12 ∧ 1 ≤ d ∧ d ≤ daysInMonth y m then
          some (daysFromCivil y m d)
        else none
      else none
    | _ => none
  else none

/-! ### Risk scorer (`_calculate_risk_score`) -/

/-- `UserStatus` enumeration values used by the scorer. -/
def statusACTIVE : String := "ACTIVE"
def statusSUSPENDED : String := "SUSPENDED"
def statusDEPROVISIONED : String := "DEPROVISIONED"

/-- Admin keywords of the risk scorer (note: no `sudo`, unlike
`get_privileged_users`). -/
def admin_keywords : List String :=
  ["admin", "administrator", "root", "superuser", "privileged"]

/-- `any(keyword in g.lower() for keyword in admin_keywords)` for a
string group name. -/
def isAdminGroupName (kws : List String) (g : String) : Bool :=
  kws.any (fun keyword => strContains (pyLower g) keyword)

/-- The last-login contribution: `last_login` truthiness gate, ISO
parse with `ValueError`/`AttributeError` fallback (+10), recency
brackets, or the +25 no-login penalty. -/
def loginRisk (now : Int) (last_login : JValue) : Int :=
  if last_login.truthy then
    match last_login with
    | .str s =>
      match parseIsoDate s with
      | some login_day =>
        let days_since_login := now - login_day
        if days_since_login > 90 then 30
        else if days_since_login > 30 then 15
        else if days_since_login > 7 then 5
        else 0
      | none => 10
    | _ => 10
  else 25

/-- `_calculate_risk_score(self, user_data, status, last_login, groups)`.
`user_data` is received but never read (proved below).  The `groups`
here are the already-lowercasable string names; a non-string group
raises `AttributeError` before this function returns, which
`_parse_user_data` models as its error path. -/
def _calculate_risk_score (now : Int) (user_data : JValue) (status : String)
    (last_login : JValue) (groups : List String) : Int :=
  let risk1 : Int :=
    if status = statusSUSPENDED then 20
    else if status = statusDEPROVISIONED then 50
    else 0
  let risk2 : Int := risk1 + loginRisk now last_login
  let admin_groups := groups.filter (isAdminGroupName admin_keywords)
  let risk3 : Int := risk2 + admin_groups.length * 10
  min risk3 100

/-! ### Record normalizer (`_parse_user_data`) -/

/-- The canonical user entity (`IGAUser` dataclass).  Loosely typed
fields keep whatever Python value the resolution chain produced, so
they are `JValue`s; `status` is always a string (built by `str(...)` or
from the enum) and `risk_score` an integer.  `__post_init__` is a
no-op on parser-built users: `groups`/`attributes` are never `None`
here, and the `display_name` fallback recomputes the very string the
resolution chain already supplied when it is empty. -/
structure IGAUser where
  id : JValue
  email : JValue
  username : JValue
  first_name : JValue
  last_name : JValue
  display_name : JValue
  status : String
  department : JValue
  job_title : JValue
  phone_number : JValue
  employee_id : JValue
  created_date : JValue
  last_login : JValue
  last_updated : JValue
  groups : List JValue
  attributes : JValue
  risk_score : Int
  deriving Inhabited, DecidableEq

/-- Status resolution:
`user_data.get('activated', user_data.get('suspended', user_data.get('status', 'UNKNOWN')))`.
`dict.get` falls through only when the key is absent. -/
def statusRaw (user_data : JValue) : JValue :=
  match user_data.getKey "activated" with
  | some v => v
  | none =>
    match user_data.getKey "suspended" with
    | some v => v
    | none => user_data.getD "status" (.str "UNKNOWN")

/-- Boolean values map `True → ACTIVE`, `False → SUSPENDED` (whichever
key supplied them); anything else is `str(...).upper()`. -/
def parseStatus (user_data : JValue) : String :=
  match statusRaw user_data with
  | .bool b => if b then statusACTIVE else statusSUSPENDED
  | v => pyUpper (JValue.pyStr v)

/-- The `groups` comprehension:
`[g.get('name', g) if isinstance(g, dict) else str(g) for g in user_data['groups']]`,
guarded by `'groups' in user_data and isinstance(user_data['groups'], list)`. -/
def parseGroups (user_data : JValue) : List JValue :=
  match user_data.getKey "groups" with
  | some (.arr gs) =>
    gs.map (fun g =>
      match g with
      | .obj _ => g.getD "name" g
      | _ => .str (JValue.pyStr g))
  | _ => []

/-- `group.lower()` succeeds only on strings. -/
def asString : JValue → Option String
  | .str s => some s
  | _ => none

/-- Collect the group names, failing at the first non-string as the
comprehension in `_calculate_risk_score` does when `g.lower()` raises
`AttributeError`. -/
def stringNames : List JValue → Option (List String)
  | [] => some []
  | g :: rest =>
    match asString g with
    | some s =>
      match stringNames rest with
      | some ss => some (s :: ss)
      | none => none
    | none => none

/-- `f"{first_name} {last_name}".strip()` -/
def fallbackDisplayName (first_name last_name : JValue) : JValue :=
  .str (pyStrip (JValue.pyStr first_name ++ " " ++ JValue.pyStr last_name))

/-- `_parse_user_data(self, user_data)`: field resolution over the raw
record, then risk scoring.  The error path stands for the exceptions
the Python code lets escape (re-raised after logging): `AttributeError`
when `user_data` is not a dict, and `AttributeError` from
`_calculate_risk_score` when a resolved group name is not a string. -/
def _parse_user_data (now : Int) (user_data : JValue) : Except String IGAUser :=
  match user_data with
  | .obj _ =>
    let user_id := (user_data.get1 "_id").pyOr
      ((user_data.get1 "id").pyOr (user_data.getD "userId" (.str "")))
    let email := user_data.getD "email" (.str "")
    let username := (user_data.get1 "username").pyOr
      ((user_data.get1 "login").pyOr email)
    let first_name := (user_data.get1 "firstname").pyOr
      ((user_data.get1 "firstName").pyOr (user_data.getD "given_name" (.str "")))
    let last_name := (user_data.get1 "lastname").pyOr
      ((user_data.get1 "lastName").pyOr (user_data.getD "family_name" (.str "")))
    let display_name := (user_data.get1 "displayname").pyOr
      ((user_data.get1 "displayName").pyOr (fallbackDisplayName first_name last_name))
    let status := parseStatus user_data
    let department := (user_data.get1 "department").pyOr (user_data.getD "organization" (.str ""))
    let job_title := (user_data.get1 "jobTitle").pyOr (user_data.getD "title" (.str ""))
    let employee_id := (user_data.get1 "employeeIdentifier").pyOr (user_data.getD "employeeNumber" (.str ""))
    let phone := (user_data.get1 "phoneNumber").pyOr (user_data.getD "mobilePhone" (.str ""))
    let created_date := (user_data.get1 "created").pyOr (user_data.get1 "createdAt")
    let last_login := (user_data.get1 "lastLogin").pyOr (user_data.get1 "lastSignIn")
    let last_updated := (user_data.get1 "updated").pyOr (user_data.get1 "lastUpdated")
    let groups := parseGroups user_data
    match stringNames groups with
    | none => .error "AttributeError: lower on non-string group"
    | some group_names =>
      let risk_score := _calculate_risk_score now user_data status last_login group_names
      .ok {
        id := user_id
        email := email
        username := username
        first_name := first_name
        last_name := last_name
        display_name := display_name
        status := status
        department := department
        job_title := job_title
        phone_number := phone
        employee_id := employee_id
        created_date := created_date
        last_login := last_login
        last_updated := last_updated
        groups := groups
        attributes := user_data
        risk_score := risk_score
      }
  | _ => .error "AttributeError: raw record is not a dict"

/-! ### Lemmas about the risk scorer -/

theorem loginRisk_nonneg (now : Int) (l : JValue) : 0 ≤ loginRisk now l := by
  unfold loginRisk
  repeat' split
  all_goals try dsimp only
  all_goals try split_ifs
  all_goals norm_num

theorem calculate_risk_score_bounds (now : Int) (user_data : JValue) (status : String)
    (last_login : JValue) (groups : List String) :
    0 ≤ _calculate_risk_score now user_data status last_login groups ∧
      _calculate_risk_score now user_data status last_login groups ≤ 100 := by
  unfold _calculate_risk_score
  refine ⟨le_min ?_ (by norm_num), min_le_right _ _⟩
  have h1 : (0 : Int) ≤ if status = statusSUSPENDED then 20
      else if status = statusDEPROVISIONED then 50 else 0 := by
    split_ifs <;> norm_num
  have h2 := loginRisk_nonneg now last_login
  have h3 : (0 : Int) ≤ (groups.filter (isAdminGroupName admin_keywords)).length * 10 := by
    positivity
  omega

/-- Whenever `_parse_user_data` succeeds, the entity's `risk_score` is
exactly `_calculate_risk_score` applied to the resolved status,
last-login value and lowered group names. -/
theorem parse_risk_score_eq (now : Int) (r : JValue) (u : IGAUser)
    (h : _parse_user_data now r = .ok u) :
    ∃ group_names, stringNames (parseGroups r) = some group_names ∧
      u.risk_score = _calculate_risk_score now r (parseStatus r)
        ((r.get1 "lastLogin").pyOr (r.get1 "lastSignIn")) group_names := by
  cases r with
  | obj fields =>
    unfold _parse_user_data at h
    dsimp only at h
    split at h
    · exact absurd h (by simp)
    · rename_i group_names hmap
      refine ⟨group_names, hmap, ?_⟩
      cases h
      rfl
  | null => exact absurd h (by simp [_parse_user_data])
  | bool b => exact absurd h (by simp [_parse_user_data])
  | num n => exact absurd h (by simp [_parse_user_data])
  | str s => exact absurd h (by simp [_parse_user_data])
  | arr xs => exact absurd h (by simp [_parse_user_data])

/-! ### C1: Scenario B -/

/-- Scenario B record: `suspended: true`, no `activated` key,
`last_login` 100 days in the past, groups `["Org-Admins"]`. -/
def scenarioB_record : JValue := .obj [
  ("id", .str "1"), ("email", .str "a@x.com"),
  ("firstname", .str "A"), ("lastname", .str "B"),
  ("suspended", .bool true),
  ("lastLogin", .str "2025-07-04"),
  ("groups", .arr [.str "Org-Admins"])]

/-- A "now" 100 days after the scenario's last login. -/
def scenarioB_now : Int := daysFromCivil 2025 7 4 + 100

def riskOf (e : Except String IGAUser) : Int :=
  match e with
  | .ok u => u.risk_score
  | .error _ => -1

def statusOf (e : Except String IGAUser) : String :=
  match e with
  | .ok u => u.status
  | .error _ => ""

/-- C1 counterexample: on the Scenario B record the normalizer yields
risk_score 40, not 60 — `suspended: true` resolves through the boolean
branch to status ACTIVE (contributing 0), because the `True → ACTIVE`
mapping is applied to the resolved boolean no matter which key
supplied it. -/
theorem c1_riskScore_counterexample :
    riskOf (_parse_user_data scenarioB_now scenarioB_record) = 40 ∧ (40 : Int) ≠ 60 := by
  constructor
  · rfl
  · decide

/-- C1 (amended): for a raw record with `suspended: true` (and no
`activated` key), a `last_login` 100 days in the past, and groups
`["Org-Admins"]`, the normalizer produces a user whose status is
ACTIVE (the boolean resolved from `suspended` maps to ACTIVE) and
whose risk_score is 40, composed as 0 for ACTIVE status, plus 30 for
last login more than 90 days ago, plus 10 for one admin-matching
group. -/
theorem c1_scenarioB_riskScore :
    statusOf (_parse_user_data scenarioB_now scenarioB_record) = statusACTIVE ∧
      riskOf (_parse_user_data scenarioB_now scenarioB_record) = 0 + 30 + 10 := by
  exact ⟨rfl, rfl⟩

/-! ### C3: risk score bounds -/

/-- C3: for every raw input record, whatever combination of status,
last_login (absent, unparseable, or any date) and groups it has, the
risk_score of the normalized entity satisfies
`0 ≤ risk_score ≤ 100`. -/
theorem c3_riskScore_in_range (now : Int) (r : JValue) (u : IGAUser)
    (h : _parse_user_data now r = .ok u) :
    0 ≤ u.risk_score ∧ u.risk_score ≤ 100 := by
  obtain ⟨gs, -, hrisk⟩ := parse_risk_score_eq now r u h
  rw [hrisk]
  exact calculate_risk_score_bounds ..

/-- Record and entity used to witness C3 concretely. -/
def c3_record : JValue := .obj [
  ("suspended", .bool false),
  ("lastLogin", .str "not-a-date"),
  ("groups", .arr [.str "root-ops", .str "Administrators", .str "dev"])]

def c3_user : IGAUser :=
  match _parse_user_data 0 c3_record with
  | .ok u => u
  | .error _ => default

theorem c3_riskScore_in_range_witness :
    0 ≤ c3_user.risk_score ∧ c3_user.risk_score ≤ 100 :=
  c3_riskScore_in_range 0 c3_record c3_user rfl

/-! ### C7: determinism of normalization -/

/-- Record used to exhibit the time dependence of the risk score. -/
def c7_record : JValue := .obj [("lastLogin", .str "2025-01-01")]

/-- C7 counterexample: normalizing the same raw record in two runs of
the program does NOT yield identical entities — `_calculate_risk_score`
reads `datetime.now()`, so a run 8 days after the last login scores 5
while a run 31 days after it scores 15.  The risk score is therefore
not a function of (status, last_login, groups) alone. -/
theorem c7_determinism_counterexample :
    riskOf (_parse_user_data (daysFromCivil 2025 1 1 + 8) c7_record) = 5 ∧
      riskOf (_parse_user_data (daysFromCivil 2025 1 1 + 31) c7_record) = 15 ∧
      (5 : Int) ≠ 15 := by
  refine ⟨rfl, rfl, by decide⟩

/-- C7 (amended): normalization is a pure function of the raw record
AND the current time: at a fixed `now`, the risk score depends only on
(status, last_login, groups) — the `user_data` argument that
`_calculate_risk_score` also receives never influences the result. -/
theorem c7_riskScore_ignores_user_data (now : Int) (u1 u2 : JValue) (status : String)
    (last_login : JValue) (groups : List String) :
    _calculate_risk_score now u1 status last_login groups =
      _calculate_risk_score now u2 status last_login groups := rfl

/-! ### Transport client (`_make_request`)

The retry loop `for attempt in range(self.config.MAX_RETRIES)` is
embedded as structural recursion over the list of per-attempt server
behaviours (`(List.range MAX_RETRIES).map responses`); the element at
position `attempt` is what the server does on that attempt.  Sleeping
(`Retry-After`, linear backoff, `RATE_LIMIT_DELAY`) only blocks the
thread and is not modelled. -/

/-- Behaviour of the server on one attempt, as `_make_request` can
observe it: a JSON 2xx body, a 429, a non-2xx status
(`raise_for_status`, a `RequestException`), a `requests` timeout, or
another connection-level `RequestException`. -/
inductive HttpResp where
  | ok (body : JValue)
  | rate429
  | httpError
  | timeout
  | connError
  deriving DecidableEq

/-- How `_make_request` fails: an exception re-raised from an `except`
branch on the final attempt, or the `RequestException` raised after
the loop (line 198). -/
inductive ReqOutcome where
  | transport
  | exhausted
  deriving DecidableEq

/-- The transport statistics and run statistics (`self.sync_stats`).
Timestamps are modelled as stamped/unstamped flags; summary logging as
a flag set by `_log_sync_summary`. -/
structure SyncStats where
  api_calls : Nat
  errors : Nat
  rate_limited : Nat
  active_users : Nat
  suspended_users : Nat
  total_users : Nat
  start_time_stamped : Bool
  end_time_stamped : Bool
  summary_logged : Bool
  deriving DecidableEq

def stats0 : SyncStats :=
  ⟨0, 0, 0, 0, 0, 0, false, false, false⟩

/-- One pass over the remaining attempts of the `for attempt` loop.
Every iteration first bumps `api_calls`; a 429 bumps `rate_limited`
and `continue`s (consuming the attempt); an exception on the last
attempt (`attempt == MAX_RETRIES - 1`, i.e. no attempts remain) bumps
`errors` and re-raises; the empty list is the fall-through to the
post-loop `raise`. -/
def requestAttempts : List HttpResp → SyncStats → Except ReqOutcome JValue × SyncStats
  | [], st => (.error .exhausted, st)
  | r :: rest, st =>
    let st1 := { st with api_calls := st.api_calls + 1 }
    match r with
    | .ok body => (.ok body, st1)
    | .rate429 => requestAttempts rest { st1 with rate_limited := st1.rate_limited + 1 }
    | .timeout | .httpError | .connError =>
      if rest.isEmpty then (.error .transport, { st1 with errors := st1.errors + 1 })
      else requestAttempts rest st1

/-- `_make_request(self, endpoint, params)` under a server that
answers attempt `k` with `responses k`. -/
def _make_request (maxRetries : Nat) (responses : Nat → HttpResp) (st : SyncStats) :
    Except ReqOutcome JValue × SyncStats :=
  requestAttempts ((List.range maxRetries).map responses) st

/-- C2 counterexample: with `MAX_RETRIES = 3`, three consecutive 429
responses DO exhaust the retry budget and the request fails with the
post-loop `RequestException` — the `continue` moves to the next
attempt of the `for` loop, so a 429 consumes a retry attempt. -/
theorem c2_rate_limit_counterexample :
    _make_request 3 (fun _ => .rate429) stats0 =
      (.error .exhausted, { stats0 with api_calls := 3, rate_limited := 3 }) := rfl

theorem requestAttempts_all429 (n : Nat) (st : SyncStats) :
    requestAttempts (List.replicate n .rate429) st =
      (.error .exhausted,
        { st with api_calls := st.api_calls + n, rate_limited := st.rate_limited + n }) := by
  induction n generalizing st with
  | zero => simp [requestAttempts]
  | succ n ih =>
    rw [List.replicate_succ]
    rw [show requestAttempts (HttpResp.rate429 :: List.replicate n .rate429) st =
          requestAttempts (List.replicate n .rate429)
            { st with api_calls := st.api_calls + 1,
                      rate_limited := st.rate_limited + 1 } from rfl]
    rw [ih]
    have h1 : st.api_calls + 1 + n = st.api_calls + (n + 1) := by omega
    have h2 : st.rate_limited + 1 + n = st.rate_limited + (n + 1) := by omega
    rw [h1, h2]

/-- C2 (amended): each HTTP 429 response is handled by sleeping and
retrying, incrementing the rate_limited counter — but it consumes a
retry attempt: `MAX_RETRIES` consecutive 429 responses exhaust the
budget and the call raises the post-loop `RequestException` (without
incrementing the error counter). -/
theorem c2_rate_limit_consumes_attempts (n : Nat) (st : SyncStats) :
    _make_request n (fun _ => .rate429) st =
      (.error .exhausted,
        { st with api_calls := st.api_calls + n, rate_limited := st.rate_limited + n }) := by
  unfold _make_request
  rw [List.map_const', List.length_range]
  exact requestAttempts_all429 n st

/-- C6: with `MAX_RETRIES = 3`, three consecutive connection timeouts
make the call raise a transport error, increment the error counter
exactly once, and increment the API-call counter exactly three
times. -/
theorem c6_three_timeouts (st : SyncStats) :
    _make_request 3 (fun _ => .timeout) st =
      (.error .transport,
        { st with api_calls := st.api_calls + 3, errors := st.errors + 1 }) := rfl

/-! ### C9: groups of a normalized entity -/

theorem stringNames_all_some (l : List JValue) (gs : List String)
    (h : stringNames l = some gs) :
    l.all (fun g => (asString g).isSome) = true := by
  induction l generalizing gs with
  | nil => simp
  | cons g rest ih =>
    unfold stringNames at h
    cases hg : asString g with
    | none => rw [hg] at h; exact absurd h (by simp)
    | some s =>
      rw [hg] at h
      cases hr : stringNames rest with
      | none => rw [hr] at h; exact absurd h (by simp)
      | some ss =>
        simp only [List.all_cons, hg, Option.isSome_some, Bool.true_and]
        exact ih ss hr

/-- C9: for every raw record that normalizes successfully, the
entity's groups are exactly the comprehension
`[g.get('name', g) if isinstance(g, dict) else str(g) for g in user_data['groups']]`
(empty unless `groups` holds a list), and every element of them is a
string.  (A record whose comprehension leaves a non-string — a mapping
without a `name` field, or with a non-string one — is rejected
wholesale: `g.lower()` in `_calculate_risk_score` raises before the
entity is built, so no normalized entity ever carries it.) -/
theorem c9_groups_are_strings (now : Int) (r : JValue) (u : IGAUser)
    (h : _parse_user_data now r = .ok u) :
    u.groups = parseGroups r ∧ u.groups.all (fun g => (asString g).isSome) = true := by
  cases r with
  | obj fields =>
    unfold _parse_user_data at h
    dsimp only at h
    split at h
    · exact absurd h (by simp)
    · rename_i group_names hmap
      cases h
      exact ⟨rfl, stringNames_all_some _ _ hmap⟩
  | null => exact absurd h (by simp [_parse_user_data])
  | bool b => exact absurd h (by simp [_parse_user_data])
  | num n => exact absurd h (by simp [_parse_user_data])
  | str s => exact absurd h (by simp [_parse_user_data])
  | arr xs => exact absurd h (by simp [_parse_user_data])

/-- Record whose `groups` exercises every comprehension branch: a
mapping with a `name`, a stringified number, a plain string. -/
def c9_record : JValue := .obj [
  ("groups", .arr [.obj [("name", .str "devs")], .num 7, .str "Ops"])]

def c9_user : IGAUser :=
  match _parse_user_data 0 c9_record with
  | .ok u => u
  | .error _ => default

theorem c9_groups_are_strings_witness :
    c9_user.groups = parseGroups c9_record ∧
      c9_user.groups.all (fun g => (asString g).isSome) = true :=
  c9_groups_are_strings 0 c9_record c9_user rfl

/-! ### C10: `get_privileged_users` -/

/-- Admin keywords of the query helper — includes `sudo`, unlike the
scorer's list. -/
def privileged_admin_keywords : List String :=
  ["admin", "administrator", "root", "superuser", "privileged", "sudo"]

/-- The inner `for group in user.groups` loop: stop at the first group
whose lowered name contains a keyword (`break`), raise `AttributeError`
at the first non-string group. -/
def anyAdminGroup (kws : List String) : List JValue → Except String Bool
  | [] => .ok false
  | g :: rest =>
    match g with
    | .str s => if isAdminGroupName kws s then .ok true else anyAdminGroup kws rest
    | _ => .error "AttributeError: lower"

/-- `get_privileged_users(self)` over the accumulated `self.users`
list: each user is appended at most once (the inner loop `break`s on
the first matching group). -/
def get_privileged_users : List IGAUser → Except String (List IGAUser)
  | [] => .ok []
  | u :: rest =>
    match anyAdminGroup privileged_admin_keywords u.groups with
    | .error e => .error e
    | .ok b =>
      match get_privileged_users rest with
      | .error e => .error e
      | .ok tail => .ok (if b then u :: tail else tail)

/-- Membership criterion of `get_privileged_users`, as a Boolean
predicate on users whose groups are strings. -/
def userIsPrivileged (u : IGAUser) : Bool :=
  u.groups.any (fun g =>
    match asString g with
    | some s => isAdminGroupName privileged_admin_keywords s
    | none => false)

theorem anyAdminGroup_eq_ok (gs : List JValue)
    (h : gs.all (fun g => (asString g).isSome) = true) :
    anyAdminGroup privileged_admin_keywords gs =
      .ok (gs.any (fun g =>
        match asString g with
        | some s => isAdminGroupName privileged_admin_keywords s
        | none => false)) := by
  induction gs with
  | nil => simp [anyAdminGroup]
  | cons g rest ih =>
    simp only [List.all_cons, Bool.and_eq_true] at h
    cases g with
    | str s =>
      by_cases hadm : isAdminGroupName privileged_admin_keywords s
      · simp [anyAdminGroup, hadm, asString]
      · simp [anyAdminGroup, hadm, asString, ih h.2]
    | null => simp [asString] at h
    | bool b => simp [asString] at h
    | num n => simp [asString] at h
    | arr xs => simp [asString] at h
    | obj fs => simp [asString] at h

theorem get_privileged_users_eq_filter (users : List IGAUser)
    (h : users.all (fun v => v.groups.all (fun g => (asString g).isSome)) = true) :
    get_privileged_users users = .ok (users.filter userIsPrivileged) := by
  induction users with
  | nil => simp [get_privileged_users]
  | cons v rest ih =>
    simp only [List.all_cons, Bool.and_eq_true] at h
    unfold get_privileged_users
    rw [anyAdminGroup_eq_ok v.groups h.1, ih h.2]
    by_cases hp : userIsPrivileged v
    · simp [userIsPrivileged] at hp
      simp [List.filter_cons, userIsPrivileged, hp]
    · simp [userIsPrivileged] at hp
      simp [List.filter_cons, userIsPrivileged, hp]

/-- C10: over an accumulated user list (whose groups are strings, as
every parser-built entity's are), `get_privileged_users` returns each
entry of the list at most once: an entry with at least one group
matching the admin keyword set occurs in the result exactly as often
as in the input (once, for a user accumulated once — even when several
of its groups match), and an entry with no matching group does not
occur at all, so every returned user has a matching group. -/
theorem c10_privileged_users_count (users : List IGAUser) (u : IGAUser)
    (h : users.all (fun v => v.groups.all (fun g => (asString g).isSome)) = true) :
    (get_privileged_users users).map (fun out => out.count u) =
      .ok (if userIsPrivileged u then users.count u else 0) := by
  rw [get_privileged_users_eq_filter users h]
  simp only [Except.map]
  by_cases hp : userIsPrivileged u
  · rw [if_pos hp, List.count_filter hp]
  · rw [if_neg hp]
    congr 1
    rw [List.count_eq_zero]
    intro hmem
    exact hp (List.of_mem_filter hmem)

/-- A user value with the given groups, as the accumulated list holds
them. -/
def mkUserWithGroups (groups : List JValue) : IGAUser :=
  ⟨.null, .null, .null, .null, .null, .null, "ACTIVE",
    .null, .null, .null, .null, .null, .null, .null, groups, .null, 0⟩

def c10_userA : IGAUser := mkUserWithGroups [.str "Org-Admins", .str "sudo-ops"]
def c10_userB : IGAUser := mkUserWithGroups [.str "devs"]

theorem c10_privileged_users_count_witness :
    (get_privileged_users [c10_userA, c10_userB]).map
        (fun out => out.count c10_userA) =
      .ok (if userIsPrivileged c10_userA
        then [c10_userA, c10_userB].count c10_userA else 0) :=
  c10_privileged_users_count [c10_userA, c10_userB] c10_userA (by decide)

/-! ### Retrieval orchestrator (`retrieve_all_users`)

The `while True` pagination loop is embedded as structural recursion
over the list of per-request outcomes: element `k` is what the
`_make_request('systemusers', params)` call of iteration `k+1`
produces — either a decoded JSON body or a raised exception (the
transport model above shows how such outcomes arise from per-attempt
behaviours).  A finite list can run out before the loop would stop;
that model artifact is reported as `LoopExit.starved` and excluded by
hypothesis where it matters. -/

/-- An exception escaping into the orchestrator's `try`: a requests
error propagating out of `_make_request`, or a `TypeError` from
subscripting/iterating an unexpectedly-shaped response body.  The
orchestrator treats every exception alike (log, re-raise). -/
inductive PyErr where
  | transport
  | requestFailure
  | typeError
  deriving DecidableEq

inductive LoopExit where
  | completed
  | failed (e : PyErr)
  | starved
  deriving DecidableEq

/-- `'results' in response_data` / `'data' in response_data`: key
membership on a dict, element membership on a list, substring on a
string, `TypeError` otherwise. -/
def pyInStr (k : String) (v : JValue) : Except String Bool :=
  match v with
  | .obj fs => .ok (fs.any (fun kv => kv.1 == k))
  | .arr xs => .ok (xs.any (fun x => JValue.beqJ x (.str k)))
  | .str s => .ok (strContains s k)
  | _ => .error "TypeError: argument is not iterable"

/-- Lines 343-351: pick the response shape and extract
`(users_data, next_cursor)`.  Subscripting a non-dict that passed the
`in` test raises `TypeError`. -/
def extractPage (response_data : JValue) : Except String (JValue × JValue) := do
  if ← pyInStr "results" response_data then
    match response_data with
    | .obj _ =>
      .ok (response_data.get1 "results", response_data.get1 "next_cursor")
    | _ => .error "TypeError: indices must be integers"
  else if ← pyInStr "data" response_data then
    match response_data with
    | .obj _ =>
      .ok (response_data.get1 "data",
        (response_data.get1 "next_cursor").pyOr (response_data.get1 "nextCursor"))
    | _ => .error "TypeError: indices must be integers"
  else
    match response_data with
    | .arr _ => .ok (response_data, .null)
    | _ => .ok (.arr [], .null)

/-- `for user_data in users_data`: lists iterate their elements,
strings their characters, dicts their keys; other values raise
`TypeError`. -/
def pyIterate (v : JValue) : Except String (List JValue) :=
  match v with
  | .arr xs => .ok xs
  | .str s => .ok (s.data.map (fun c => .str (String.mk [c])))
  | .obj fs => .ok (fs.map (fun kv => .str kv.1))
  | _ => .error "TypeError: object is not iterable"

/-- Lines 362-365: per-user statistics update. -/
def statsForUser (user : IGAUser) (st : SyncStats) : SyncStats :=
  if user.status = statusACTIVE then
    { st with active_users := st.active_users + 1 }
  else if user.status = statusSUSPENDED ∨ user.status = statusDEPROVISIONED then
    { st with suspended_users := st.suspended_users + 1 }
  else st

/-- Lines 354-370: the per-record loop of one page.  A record whose
parse raises is logged, counted in `errors` and skipped (`continue`);
every other record is normalized and appended. -/
def processPage (now : Int) :
    List JValue → List IGAUser → SyncStats → List IGAUser × SyncStats
  | [], users, st => (users, st)
  | r :: rest, users, st =>
    match _parse_user_data now r with
    | .ok user => processPage now rest (users ++ [user]) (statsForUser user st)
    | .error _ => processPage now rest users { st with errors := st.errors + 1 }

structure RunResult where
  exit : LoopExit
  users : List IGAUser
  stats : SyncStats
  page_count : Nat
  deriving DecidableEq

/-- The `while True` body, lines 326-376: count the page, fetch,
dispatch on shape, process the records, then
`if not next_cursor or not users_data: break`. -/
def raLoop (now : Int) :
    List (Except PyErr JValue) → List IGAUser → SyncStats → Nat → RunResult
  | [], users, st, page_count => ⟨.starved, users, st, page_count⟩
  | resp :: rest, users, st, page_count =>
    let page_count := page_count + 1
    match resp with
    | .error e => ⟨.failed e, users, st, page_count⟩
    | .ok response_data =>
      match extractPage response_data with
      | .error _ => ⟨.failed .typeError, users, st, page_count⟩
      | .ok (users_data, next_cursor) =>
        match pyIterate users_data with
        | .error _ => ⟨.failed .typeError, users, st, page_count⟩
        | .ok records =>
          let r1 := processPage now records users st
          if !next_cursor.truthy || !users_data.truthy then
            ⟨.completed, r1.1, r1.2, page_count⟩
          else
            raLoop now rest r1.1 r1.2 page_count

/-- The `finally` block, lines 381-384: stamp the end time, set
`total_users` to the length of the accumulated list, log the
summary. -/
def finalizeStats (users : List IGAUser) (st : SyncStats) : SyncStats :=
  { st with end_time_stamped := true
            total_users := users.length
            summary_logged := true }

/-- `retrieve_all_users(self)` under a given stream of request
outcomes: stamp the start time, run the loop inside `try`, and apply
the `finally` block on every exit path — normal break and propagating
exception alike. -/
def retrieve_all_users (now : Int) (responses : List (Except PyErr JValue))
    (st0 : SyncStats) : RunResult :=
  let r := raLoop now responses [] { st0 with start_time_stamped := true } 0
  ⟨r.exit, r.users, finalizeStats r.users r.stats, r.page_count⟩

/-! ### C4: per-record error isolation -/

/-- The parse outcome of one record, as an `Option`. -/
def parsedOk (now : Int) (r : JValue) : Option IGAUser :=
  match _parse_user_data now r with
  | .ok u => some u
  | .error _ => none

theorem statsForUser_errors (user : IGAUser) (st : SyncStats) :
    (statsForUser user st).errors = st.errors := by
  unfold statsForUser
  split_ifs <;> rfl

theorem processPage_users_eq (now : Int) (records : List JValue)
    (users : List IGAUser) (st : SyncStats) :
    (processPage now records users st).1 =
      users ++ records.filterMap (parsedOk now) := by
  induction records generalizing users st with
  | nil => simp [processPage]
  | cons r rest ih =>
    cases hp : _parse_user_data now r with
    | ok user =>
      simp [processPage, hp, parsedOk, ih]
    | error e =>
      simp [processPage, hp, parsedOk, ih]

theorem processPage_errors_eq (now : Int) (records : List JValue)
    (users : List IGAUser) (st : SyncStats) :
    (processPage now records users st).2.errors =
      st.errors + records.countP (fun r => (parsedOk now r).isNone) := by
  induction records generalizing users st with
  | nil => simp [processPage]
  | cons r rest ih =>
    cases hp : _parse_user_data now r with
    | ok user =>
      rw [show processPage now (r :: rest) users st =
            processPage now rest (users ++ [user]) (statsForUser user st) by
          simp [processPage, hp]]
      rw [ih, statsForUser_errors]
      simp [List.countP_cons, parsedOk, hp]
    | error e =>
      rw [show processPage now (r :: rest) users st =
            processPage now rest users { st with errors := st.errors + 1 } by
          simp [processPage, hp]]
      rw [ih]
      simp [List.countP_cons, parsedOk, hp]
      omega

/-- C4: over any page of raw records, a record whose parse raises is
skipped — it alone is dropped and it bumps the error counter by one —
while every other record of the page is normalized and accumulated in
order; and (third conjunct) a run whose final page carries such bad
records still completes: no parse failure escapes the per-record
`try`/`except`, so a single bad record never makes
`retrieve_all_users` raise. -/
theorem c4_bad_record_skipped (now : Int) (records : List JValue)
    (users : List IGAUser) (st : SyncStats) :
    (processPage now records users st).1 =
        users ++ records.filterMap (parsedOk now) ∧
      (processPage now records users st).2.errors =
        st.errors + records.countP (fun r => (parsedOk now r).isNone) ∧
      ∀ (users0 : List IGAUser) (st0 : SyncStats),
        (raLoop now [.ok (.obj [("results", .arr records), ("next_cursor", .null)])]
          users0 st0 0).exit = .completed :=
  ⟨processPage_users_eq now records users st,
    processPage_errors_eq now records users st,
    fun _ _ => rfl⟩

/-! ### C5: pagination termination and iteration count -/

/-- A server page in `results`/`next_cursor` shape. -/
def mkResultsPage (records : List JValue) (cursor : JValue) : JValue :=
  .obj [("results", .arr records), ("next_cursor", cursor)]

theorem extractPage_mkResultsPage (records : List JValue) (cursor : JValue) :
    extractPage (mkResultsPage records cursor) = .ok (.arr records, cursor) := rfl

theorem raLoop_pages (now : Int) (front : List (List JValue × JValue))
    (lastPage : List JValue × JValue) (users : List IGAUser) (st : SyncStats) (k : Nat)
    (hfront : ∀ p ∈ front, p.2.truthy = true ∧ p.1 ≠ [])
    (hlast : lastPage.2.truthy = false ∨ lastPage.1 = []) :
    (raLoop now ((front ++ [lastPage]).map (fun p => .ok (mkResultsPage p.1 p.2)))
        users st k).exit = .completed ∧
      (raLoop now ((front ++ [lastPage]).map (fun p => .ok (mkResultsPage p.1 p.2)))
        users st k).page_count = k + front.length + 1 := by
  induction front generalizing users st k with
  | nil =>
    rcases lastPage with ⟨recs, cur⟩
    rcases hlast with h | h
    · simp [raLoop, extractPage_mkResultsPage, pyIterate, h]
    · subst h
      simp [raLoop, extractPage_mkResultsPage, pyIterate, JValue.truthy]
  | cons p front1 ih =>
    rcases p with ⟨recs, cur⟩
    have hp := hfront _ (List.mem_cons_self _ _)
    have hcur : cur.truthy = true := hp.1
    have hrecs : (JValue.arr recs).truthy = true := by
      simp [JValue.truthy]
      exact hp.2
    rw [show ((((recs, cur) :: front1) ++ [lastPage]).map
          (fun p => Except.ok (mkResultsPage p.1 p.2))) =
        .ok (mkResultsPage recs cur) ::
          ((front1 ++ [lastPage]).map (fun p => .ok (mkResultsPage p.1 p.2))) by simp]
    rw [show raLoop now (.ok (mkResultsPage recs cur) ::
          ((front1 ++ [lastPage]).map (fun p => .ok (mkResultsPage p.1 p.2))))
          users st k =
        if !cur.truthy || !(JValue.arr recs).truthy then
          ⟨.completed, (processPage now recs users st).1,
            (processPage now recs users st).2, k + 1⟩
        else
          raLoop now ((front1 ++ [lastPage]).map (fun p => .ok (mkResultsPage p.1 p.2)))
            (processPage now recs users st).1 (processPage now recs users st).2
            (k + 1) from rfl]
    rw [hcur, hrecs]
    simp only [Bool.not_true, Bool.or_self, Bool.false_eq_true, if_false]
    have := ih (processPage now recs users st).1 (processPage now recs users st).2
      (k + 1) (fun q hq => hfront q (List.mem_cons_of_mem _ hq))
    refine ⟨this.1, ?_⟩
    rw [this.2]
    simp
    omega

/-- C5 counterexample: a final page with zero records (and no cursor)
still costs one iteration of the `while` loop — the loop always runs
at least once — so with a single empty page the loop performs 1
iteration while the sequence contains 0 non-empty pages. -/
theorem c5_counterexample :
    (raLoop 0 [Except.ok (mkResultsPage [] .null)] [] stats0 0).page_count = 1 ∧
      (([(([] : List JValue), JValue.null)]).countP (fun p => !p.1.isEmpty)) = 0 ∧
      (1 : Nat) ≠ 0 := by
  refine ⟨rfl, rfl, by decide⟩

/-- C5 (amended): for every finite sequence of pages whose leading
pages each have a truthy cursor and at least one record and whose
final page has an empty/absent cursor or zero records, the retrieval
loop terminates normally, and the number of `while`-loop iterations it
performs is the number of leading pages plus one for the final page —
which equals the number of non-empty pages when the final page is
non-empty (cursor-terminated) and exceeds it by one when the run ends
on an empty page. -/
theorem c5_pagination_terminates (now : Int) (front : List (List JValue × JValue))
    (lastPage : List JValue × JValue) (users : List IGAUser) (st : SyncStats)
    (hfront : ∀ p ∈ front, p.2.truthy = true ∧ p.1 ≠ [])
    (hlast : lastPage.2.truthy = false ∨ lastPage.1 = []) :
    (raLoop now ((front ++ [lastPage]).map (fun p => .ok (mkResultsPage p.1 p.2)))
        users st 0).exit = .completed ∧
      (raLoop now ((front ++ [lastPage]).map (fun p => .ok (mkResultsPage p.1 p.2)))
        users st 0).page_count = front.length + 1 := by
  have h := raLoop_pages now front lastPage users st 0 hfront hlast
  simpa using h

theorem c5_pagination_terminates_witness :
    (raLoop 0 (([([JValue.obj []], JValue.str "cur1")] ++ [(([] : List JValue), JValue.null)]).map
        (fun p => .ok (mkResultsPage p.1 p.2))) [] stats0 0).exit = .completed ∧
      (raLoop 0 (([([JValue.obj []], JValue.str "cur1")] ++ [(([] : List JValue), JValue.null)]).map
        (fun p => .ok (mkResultsPage p.1 p.2))) [] stats0 0).page_count =
        [([JValue.obj []], JValue.str "cur1")].length + 1 :=
  c5_pagination_terminates 0 [([JValue.obj []], JValue.str "cur1")]
    (([] : List JValue), JValue.null) [] stats0 (by decide) (by decide)

/-! ### C8: guaranteed finalization -/

/-- C8: on every exit path of `retrieve_all_users` — normal completion
and a propagating exception alike — the `finally` block runs before
control returns: the end time is stamped, `total_users` is set to the
length of the accumulated user list, and the summary is logged.
(`LoopExit.starved` is excluded: it marks the model's response stream
running out, not an exit path of the program.) -/
theorem c8_stats_finalized (now : Int) (responses : List (Except PyErr JValue))
    (st0 : SyncStats)
    (h : (retrieve_all_users now responses st0).exit ≠ .starved) :
    (retrieve_all_users now responses st0).stats.end_time_stamped = true ∧
      (retrieve_all_users now responses st0).stats.total_users =
        (retrieve_all_users now responses st0).users.length ∧
      (retrieve_all_users now responses st0).stats.summary_logged = true :=
  ⟨rfl, rfl, rfl⟩

theorem c8_stats_finalized_witness :
    (retrieve_all_users 0 [.error .transport] stats0).stats.end_time_stamped = true ∧
      (retrieve_all_users 0 [.error .transport] stats0).stats.total_users =
        (retrieve_all_users 0 [.error .transport] stats0).users.length ∧
      (retrieve_all_users 0 [.error .transport] stats0).stats.summary_logged = true :=
  c8_stats_finalized 0 [.error .transport] stats0 (by decide)

end IGASync
